import Mathlib

unseal Rat.add Rat.sub Rat.mul Rat.inv Rat.ofScientific

/-!
Verification of the Iris multi-provider consultation router.

Shallow embedding of the parts of the repository the claims are about:

* `gemini_integration.py`: `CircuitBreaker.call`, `GeminiIntegration._check_rate_limit`,
  `GeminiIntegration.consult_gemini` (its circuit-breaker interaction).
* `src/optimized-ai-system.py`: `AdvancedCache` (`_generate_hash`, `get`, `set`,
  `_evict_lru`), `OptimizedMultiAIIntegration._get_adaptive_provider`,
  `_calculate_adaptive_timeout`, `_update_provider_stats_optimized`.

Python strings are modelled as lists of code points (`PyStr`), timestamps and
durations as rationals (seconds), machine floats as rationals.
-/

/-- A Python string, as its list of code points. -/
abbrev PyStr := List Nat

/-- Python `str.strip()` whitespace test, restricted to the ASCII whitespace
code points (space, tab, LF, CR, VT, FF). -/
def pyIsSpace (c : Nat) : Bool :=
  c = 32 || c = 9 || c = 10 || c = 13 || c = 11 || c = 12

/-- Python `str.lower()` on one code point (ASCII letters). -/
def pyLowerChar (c : Nat) : Nat :=
  if 65 ≤ c ∧ c ≤ 90 then c + 32 else c

/-- Python `str.lower()`. -/
def pyLower (s : PyStr) : PyStr := s.map pyLowerChar

/-- Python `str.strip()`: drop whitespace from both ends. -/
def pyStrip (s : PyStr) : PyStr :=
  ((s.dropWhile pyIsSpace).reverse.dropWhile pyIsSpace).reverse

theorem pyIsSpace_pyLowerChar (c : Nat) : pyIsSpace (pyLowerChar c) = pyIsSpace c := by
  unfold pyLowerChar pyIsSpace
  split
  · next h =>
    have lhs : (decide (c + 32 = 32) || decide (c + 32 = 9) || decide (c + 32 = 10) ||
        decide (c + 32 = 13) || decide (c + 32 = 11) || decide (c + 32 = 12)) = false := by
      simp only [Bool.or_eq_false_iff, decide_eq_false_iff_not]; omega
    have rhs : (decide (c = 32) || decide (c = 9) || decide (c = 10) ||
        decide (c = 13) || decide (c = 11) || decide (c = 12)) = false := by
      simp only [Bool.or_eq_false_iff, decide_eq_false_iff_not]; omega
    rw [lhs, rhs]
  · rfl

theorem pyLowerChar_pyLowerChar (c : Nat) :
    pyLowerChar (pyLowerChar c) = pyLowerChar c := by
  unfold pyLowerChar
  split
  · next h => rw [if_neg (by omega)]
  · rfl

theorem pyLower_pyLower (s : PyStr) : pyLower (pyLower s) = pyLower s := by
  unfold pyLower
  rw [List.map_map]
  exact List.map_congr_left fun c _ => pyLowerChar_pyLowerChar c

theorem pyStrip_pyLower (s : PyStr) : pyStrip (pyLower s) = pyLower (pyStrip s) := by
  unfold pyStrip pyLower
  have hcomp : (pyIsSpace ∘ pyLowerChar) = pyIsSpace := by
    funext c; exact pyIsSpace_pyLowerChar c
  rw [List.dropWhile_map, hcomp, ← List.map_reverse, List.dropWhile_map, hcomp,
    ← List.map_reverse]

theorem head?_dropWhile_not {p : Nat → Bool} :
    ∀ (l : PyStr) (x : Nat), (l.dropWhile p).head? = some x → p x = false := by
  intro l
  induction l with
  | nil => intro x h; simp [List.dropWhile] at h
  | cons a t ih =>
    intro x h
    by_cases hpa : p a
    · rw [List.dropWhile_cons_of_pos hpa] at h; exact ih x h
    · rw [List.dropWhile_cons_of_neg hpa] at h
      simp only [List.head?_cons, Option.some.injEq] at h
      subst h; exact Bool.eq_false_iff.mpr hpa

theorem dropWhile_eq_self_of_head {p : Nat → Bool} (l : PyStr)
    (h : ∀ x, l.head? = some x → p x = false) : l.dropWhile p = l := by
  cases l with
  | nil => rfl
  | cons a t =>
    have := h a (by simp)
    rw [List.dropWhile_cons_of_neg (by simp [this])]

theorem dropWhile_idem {p : Nat → Bool} (l : PyStr) :
    (l.dropWhile p).dropWhile p = l.dropWhile p :=
  dropWhile_eq_self_of_head _ fun x hx => head?_dropWhile_not l x hx

theorem getLast?_dropWhile {p : Nat → Bool} :
    ∀ (l : PyStr), l.dropWhile p ≠ [] → (l.dropWhile p).getLast? = l.getLast? := by
  intro l
  induction l with
  | nil => intro h; simp [List.dropWhile] at h
  | cons a t ih =>
    intro h
    by_cases hpa : p a
    · rw [List.dropWhile_cons_of_pos hpa] at h ⊢
      have ht : t ≠ [] := by
        intro he; subst he; simp [List.dropWhile] at h
      rw [ih h]
      cases t with
      | nil => exact absurd rfl ht
      | cons b u => simp [List.getLast?_cons_cons]
    · rw [List.dropWhile_cons_of_neg hpa]

theorem pyStrip_pyStrip (s : PyStr) : pyStrip (pyStrip s) = pyStrip s := by
  unfold pyStrip
  set A := s.dropWhile pyIsSpace with hA
  set C := A.reverse.dropWhile pyIsSpace with hC
  by_cases hCnil : C = []
  · rw [hCnil]; simp [List.dropWhile]
  · have h1 : C.reverse.dropWhile pyIsSpace = C.reverse := by
      apply dropWhile_eq_self_of_head
      intro x hx
      rw [List.head?_reverse] at hx
      rw [getLast?_dropWhile A.reverse hCnil] at hx
      rw [List.getLast?_reverse] at hx
      exact head?_dropWhile_not s x (hA ▸ hx)
    rw [h1, List.reverse_reverse, dropWhile_idem]

/-! ## `AdvancedCache._generate_hash` (`src/optimized-ai-system.py` lines 124-127)

`content = f"{query.strip().lower()}{context.strip().lower()}"` followed by
`hashlib.sha256(content.encode()).hexdigest()[:16]`.  The SHA-256 hex digest is
kept abstract as a parameter `digest`; everything before and after it is
embedded exactly. -/

/-- The pre-digest content string: stripped, lower-cased query and context,
concatenated with no separator (source line 126). -/
def cacheContent (query context : PyStr) : PyStr :=
  pyLower (pyStrip query) ++ pyLower (pyStrip context)

/-- The hash `AdvancedCache._generate_hash`, with the SHA-256 hex digest abstracted as
`digest`: the first 16 characters of the digest of `cacheContent`. -/
def generateHash (digest : PyStr → PyStr) (query context : PyStr) : PyStr :=
  (digest (cacheContent query context)).take 16

/-- The spec's normalization: lower-case and trim (same composition the source
applies to each component: `x.strip().lower()`). -/
def normalizeStr (s : PyStr) : PyStr := pyLower (pyStrip s)

theorem normalizeStr_component (s : PyStr) :
    pyLower (pyStrip (normalizeStr s)) = pyLower (pyStrip s) := by
  unfold normalizeStr
  rw [pyStrip_pyLower, pyStrip_pyStrip, pyLower_pyLower]

theorem cacheContent_normalize (q c : PyStr) :
    cacheContent (normalizeStr q) (normalizeStr c) = cacheContent q c := by
  unfold cacheContent
  rw [normalizeStr_component, normalizeStr_component]

/-! ## Association lists

Python `dict` operations used by the cache and the stats table, modelled on
association lists. -/

/-- Dict lookup, `d.get(k)` / `d[k]`. -/
def alGet {K V : Type} [DecidableEq K] : List (K × V) → K → Option V
  | [], _ => none
  | (k, v) :: rest, key => if k = key then some v else alGet rest key

/-- Dict deletion, `del d[k]`. -/
def alErase {K V : Type} [DecidableEq K] : List (K × V) → K → List (K × V)
  | [], _ => []
  | (k, v) :: rest, key =>
    if k = key then alErase rest key else (k, v) :: alErase rest key

/-- Dict assignment, `d[k] = v` (overwrite). -/
def alSet {K V : Type} [DecidableEq K] (m : List (K × V)) (k : K) (v : V) :
    List (K × V) :=
  (k, v) :: alErase m k

theorem alGet_alErase_self {K V : Type} [DecidableEq K] :
    ∀ (m : List (K × V)) (k : K), alGet (alErase m k) k = none := by
  intro m k
  induction m with
  | nil => rfl
  | cons p rest ih =>
    obtain ⟨k', v⟩ := p
    unfold alErase
    by_cases h : k' = k
    · rw [if_pos h]; exact ih
    · rw [if_neg h]; unfold alGet; rw [if_neg h]; exact ih

theorem alGet_alErase_ne {K V : Type} [DecidableEq K] :
    ∀ (m : List (K × V)) (k k' : K), k ≠ k' → alGet (alErase m k') k = alGet m k := by
  intro m k k' hne
  induction m with
  | nil => rfl
  | cons p rest ih =>
    obtain ⟨k0, v⟩ := p
    simp only [alErase]
    by_cases h : k0 = k'
    · rw [if_pos h, ih]
      simp only [alGet]
      rw [if_neg (fun h0 => hne (by rw [← h0, h]))]
    · rw [if_neg h]
      simp only [alGet]
      by_cases h0 : k0 = k
      · rw [if_pos h0, if_pos h0]
      · rw [if_neg h0, if_neg h0]; exact ih

theorem alGet_alSet_self {K V : Type} [DecidableEq K] (m : List (K × V)) (k : K) (v : V) :
    alGet (alSet m k v) k = some v := by
  simp [alSet, alGet]

theorem alGet_alSet_ne {K V : Type} [DecidableEq K] (m : List (K × V)) (k k' : K) (v : V)
    (hne : k' ≠ k) : alGet (alSet m k v) k' = alGet m k' := by
  simp only [alSet, alGet]
  rw [if_neg (fun he => hne he.symm)]
  exact alGet_alErase_ne m k' k hne

/-! ## `AdvancedCache` data model (`src/optimized-ai-system.py` lines 93-252)

Two tiers: the in-memory dict `self.cache` with `self.access_times`, and the
SQLite table `cache_entries`.  `pickle.dumps`/`pickle.loads` round-trips, so a
row's `response_data` blob is modelled as the `CachedResponse` itself.
`datetime` timestamps and `time.time()` stamps are rationals on one clock. -/

/-- The `CachedResponse` dataclass (lines 71-79). -/
structure CachedResponse where
  response : PyStr
  provider : PyStr
  model_used : PyStr
  timestamp : ℚ
  hit_count : ℕ
  query_hash : PyStr
  confidence : ℚ
deriving DecidableEq

/-- One row of the `cache_entries` table (columns of the `CREATE TABLE` at
lines 110-119): `response_data` is the pickled entry, `timestamp` the
`timestamp` column written from `response.timestamp.isoformat()`. -/
structure DbRow where
  response_data : CachedResponse
  timestamp : ℚ
  hit_count : ℕ
  provider : PyStr
  model_used : PyStr
deriving DecidableEq

/-- The mutable state of an `AdvancedCache`. -/
structure CacheState where
  cache : List (PyStr × CachedResponse)
  access_times : List (PyStr × ℚ)
  db : List (PyStr × DbRow)
deriving DecidableEq

/-- Stable insertion by access time (models Python's stable `sorted` with
`key=lambda x: x[1]`). -/
def insertByTime (x : PyStr × ℚ) : List (PyStr × ℚ) → List (PyStr × ℚ)
  | [] => [x]
  | y :: rest => if x.2 < y.2 then x :: y :: rest else y :: insertByTime x rest

/-- Sort an access-time list by access time, oldest first. -/
def sortByTime : List (PyStr × ℚ) → List (PyStr × ℚ)
  | [] => []
  | x :: rest => insertByTime x (sortByTime rest)

/-- Eviction, `AdvancedCache._evict_lru` (lines 215-228): sort access times ascending and
drop the oldest `max(1, len(cache) // 10)` keys from both memory structures. -/
def evictLru (st : CacheState) : CacheState :=
  if st.access_times = [] then st
  else
    let sorted := sortByTime st.access_times
    let evictCount := max 1 (st.cache.length / 10)
    let keys := (sorted.take evictCount).map Prod.fst
    { st with cache := keys.foldl alErase st.cache,
              access_times := keys.foldl alErase st.access_times }

/-- Store, `AdvancedCache.set` (lines 184-213): stamp the entry with its query hash,
evict if the memory tier is full, then write the entry to the memory tier and
(`INSERT OR REPLACE`) to the durable tier. -/
def cacheSet (digest : PyStr → PyStr) (maxSize : ℕ) (accessNow : ℚ)
    (q c : PyStr) (response : CachedResponse) (st : CacheState) : CacheState :=
  let key := generateHash digest q c
  let response' := { response with query_hash := key }
  let st1 := if maxSize ≤ st.cache.length then evictLru st else st
  { cache := alSet st1.cache key response',
    access_times := alSet st1.access_times key accessNow,
    db := alSet st1.db key
      ⟨response', response'.timestamp, response'.hit_count,
        response'.provider, response'.model_used⟩ }

/-- The durable-tier half of `AdvancedCache.get` (lines 147-180): a fresh row
is promoted into memory with its hit count bumped; an expired row is deleted. -/
def cacheGetDb (ttl now : ℚ) (key : PyStr) (st : CacheState) :
    Option CachedResponse × CacheState :=
  match alGet st.db key with
  | some row =>
    if now - row.timestamp < ttl then
      let cached := { row.response_data with hit_count := row.hit_count + 1 }
      (some cached,
        { cache := alSet st.cache key cached,
          access_times := alSet st.access_times key now,
          db := alSet st.db key { row with hit_count := row.hit_count + 1 } })
    else
      (none, { st with db := alErase st.db key })
  | none => (none, st)

/-- Lookup, `AdvancedCache.get` (lines 129-182): memory tier first (fresh hit bumps the
hit count in place and refreshes recency; an expired entry is deleted from the
memory tier), then the durable tier. -/
def cacheGet (digest : PyStr → PyStr) (ttl now : ℚ) (q c : PyStr)
    (st : CacheState) : Option CachedResponse × CacheState :=
  let key := generateHash digest q c
  match alGet st.cache key with
  | some entry =>
    if now - entry.timestamp < ttl then
      let entry' := { entry with hit_count := entry.hit_count + 1 }
      (some entry',
        { st with cache := alSet st.cache key entry',
                  access_times := alSet st.access_times key now })
    else
      cacheGetDb ttl now key
        { st with cache := alErase st.cache key,
                  access_times := alErase st.access_times key }
  | none => cacheGetDb ttl now key st

/-! ## `CircuitBreaker` (`gemini_integration.py` lines 49-88)

`call` is embedded as a state transformer: the caller supplies the current
clock (`now`, the single `time.time()` used in the body) and the outcome the
wrapped `func` would produce if it were invoked (`Except.ok` a value,
`Except.error` an exception). -/

/-- The breaker field `self.state`: CLOSED, OPEN or HALF_OPEN. -/
inductive BreakerState where
  | closed
  | opened
  | halfOpen
deriving DecidableEq

/-- The `CircuitBreaker` object (constructor at lines 52-57). -/
structure CircuitBreaker where
  failure_threshold : ℕ
  recovery_timeout : ℚ
  failure_count : ℕ
  last_failure_time : Option ℚ
  state : BreakerState
deriving DecidableEq

/-- What one `call` did: returned `func`'s result, re-raised `func`'s
exception, or raised `CircuitBreakerOpenError` without touching `func`. -/
inductive CallOutcome (α : Type) where
  | success (a : α)
  | funcError
  | breakerOpenError
deriving DecidableEq

/-- Result of one `CircuitBreaker.call`: what it raised/returned, whether
`func` was invoked, and the breaker afterwards. -/
structure CallResult (α : Type) where
  outcome : CallOutcome α
  invoked : Bool
  breaker : CircuitBreaker
deriving DecidableEq

/-- Lines 61-64: in `OPEN`, if `time.time() - last_failure_time >
recovery_timeout`, move to `HALF_OPEN` and reset the counter (the Python reads
`last_failure_time` unconditionally; in `OPEN` it is always set, `getD 0`
covers the unreachable `None`). -/
def updateStateForCall (cb : CircuitBreaker) (now : ℚ) : CircuitBreaker :=
  if cb.state = .opened ∧ now - cb.last_failure_time.getD 0 > cb.recovery_timeout then
    { cb with state := .halfOpen, failure_count := 0 }
  else cb

/-- The method `CircuitBreaker.call` (lines 59-82). -/
def CircuitBreaker.call {α : Type} (cb : CircuitBreaker) (now : ℚ)
    (func : Except Unit α) : CallResult α :=
  let cb1 := updateStateForCall cb now
  if cb1.state = .opened then ⟨.breakerOpenError, false, cb1⟩
  else
    match func with
    | .ok a =>
      if cb1.state = .halfOpen then
        ⟨.success a, true, { cb1 with state := .closed, failure_count := 0 }⟩
      else ⟨.success a, true, cb1⟩
    | .error _ =>
      let fc := cb1.failure_count + 1
      ⟨.funcError, true,
        { cb1 with failure_count := fc, last_failure_time := some now,
                   state := if cb1.failure_threshold ≤ fc then .opened else cb1.state }⟩

/-- A sequence of calls whose wrapped function fails every time, at the given
clock readings. -/
def failCalls (cb : CircuitBreaker) (ts : List ℚ) : CircuitBreaker :=
  ts.foldl (fun b t => (CircuitBreaker.call b t (Except.error () : Except Unit Unit)).breaker) cb

/-! ## `GeminiIntegration.consult_gemini`'s breaker interaction (lines 430-451)

The callable handed to the breaker is

    def _make_request():
        return asyncio.create_task(self._make_gemini_request(request))

`asyncio.create_task` schedules the coroutine and returns the task handle
immediately; it does not wait for, or re-raise from, the request.  So from the
breaker's point of view the callable always returns normally, whatever the
request's eventual outcome is.  The handle is modelled as carrying that
eventual outcome. -/

/-- The callable `_make_request`: always `Except.ok`, the payload being the task handle
with the request's eventual outcome. -/
def makeRequest {α : Type} (eventualOutcome : Except Unit α) :
    Except Unit (Except Unit α) :=
  Except.ok eventualOutcome

/-! ## `GeminiIntegration._check_rate_limit` (lines 402-428) -/

/-- The limiter fields `self.last_request_time` (window start, `0` before the
first request) and `self.request_count`. -/
structure RateLimiterState where
  last_request_time : ℚ
  request_count : ℕ
deriving DecidableEq

/-- The check `_check_rate_limit`: initialize on first use, roll the window over after
60 seconds, reject at `requests_per_minute`, otherwise count and allow. -/
def checkRateLimit (maxRequests : ℕ) (now : ℚ) (rl : RateLimiterState) :
    Bool × RateLimiterState :=
  let rl1 := if rl.last_request_time = 0 then ⟨now, 0⟩ else rl
  let rl2 := if now - rl1.last_request_time > 60 then ⟨now, 0⟩ else rl1
  if maxRequests ≤ rl2.request_count then (false, rl2)
  else (true, ⟨rl2.last_request_time, rl2.request_count + 1⟩)

/-- A sequence of rate-limit checks at the given clock readings, collecting
each check's verdict. -/
def rateLimitRun (maxRequests : ℕ) (rl : RateLimiterState) :
    List ℚ → List Bool × RateLimiterState
  | [] => ([], rl)
  | t :: ts =>
    let r := checkRateLimit maxRequests t rl
    let rest := rateLimitRun maxRequests r.2 ts
    (r.1 :: rest.1, rest.2)

/-! ## Provider statistics (`src/optimized-ai-system.py` lines 443-458, 1007-1032) -/

/-- One provider's stats dict.  `min_time` starts as `float('inf')`, modelled
as `none`. -/
structure ProviderStats where
  requests : ℕ
  successes : ℕ
  failures : ℕ
  avg_time : ℚ
  min_time : Option ℚ
  max_time : ℚ
  recent_times : List ℚ
deriving DecidableEq

/-- The default stats dict used both at construction (lines 445-456) and as
the `.get` fallback in the update (lines 1010-1014). -/
def defaultProviderStats : ProviderStats :=
  ⟨0, 0, 0, 0, none, 0, []⟩

/-- Bounded append, `deque(maxlen=100).append`: keep the most recent 100 samples. -/
def dequeAppend100 (l : List ℚ) (x : ℚ) : List ℚ :=
  let l' := l ++ [x]
  if 100 < l'.length then l'.drop (l'.length - 100) else l'

/-- The update `_update_provider_stats_optimized` (lines 1007-1032), on one provider's
stats dict. -/
def updateProviderStats (stats : ProviderStats) (success : Bool)
    (response_time : ℚ) : ProviderStats :=
  let requests := stats.requests + 1
  let successes := if success then stats.successes + 1 else stats.successes
  let failures := if success then stats.failures else stats.failures + 1
  let recent := dequeAppend100 stats.recent_times response_time
  let min_time := some (match stats.min_time with
    | none => response_time
    | some m => min m response_time)
  let max_time := max stats.max_time response_time
  let avg_time := if recent.length ≠ 0 then recent.sum / recent.length else stats.avg_time
  ⟨requests, successes, failures, avg_time, min_time, max_time, recent⟩

/-- The whole-table update: `self.provider_stats.get(provider, default)`
followed by `self.provider_stats[provider] = stats`. -/
def updateProviderStatsMap (m : List (String × ProviderStats)) (provider : String)
    (success : Bool) (response_time : ℚ) : List (String × ProviderStats) :=
  alSet m provider
    (updateProviderStats ((alGet m provider).getD defaultProviderStats) success response_time)

/-! ## Query patterns and `_calculate_adaptive_timeout` (lines 47-53, 983-1005) -/

/-- The `QueryPattern` enum. -/
inductive QueryPattern where
  | faq
  | technical
  | creative
  | analysis
  | debug
  | general
deriving DecidableEq

/-- The `pattern_multipliers` dict (lines 995-1002); the `.get(_, 1.0)`
default is never needed since the dict covers the enum. -/
def patternMultiplier : QueryPattern → ℚ
  | .faq => 3/5
  | .technical => 6/5
  | .creative => 3/2
  | .analysis => 13/10
  | .debug => 1
  | .general => 1

/-- Word count, `len(query.split())`: the number of maximal runs of non-whitespace. -/
def pyWordCount (s : PyStr) : ℕ :=
  (s.foldl
    (fun (acc : ℕ × Bool) c =>
      if pyIsSpace c then (acc.1, false)
      else (if acc.2 then acc.1 else acc.1 + 1, true))
    (0, false)).1

/-- The timeout `_calculate_adaptive_timeout` (lines 983-1005): half the total timeout,
scaled by query length and pattern, clamped to `[10, 120]`. -/
def calculateAdaptiveTimeout (timeoutTotal : ℚ) (query : PyStr)
    (pat : QueryPattern) : ℚ :=
  let baseTimeout := timeoutTotal / 2
  let queryLength := pyWordCount query
  let baseTimeout' :=
    if queryLength > 50 then baseTimeout * (3/2)
    else if queryLength < 10 then baseTimeout * (7/10)
    else baseTimeout
  max 10 (min (baseTimeout' * patternMultiplier pat) 120)

/-! ## `_get_adaptive_provider` (lines 738-775) -/

/-- Lines 750-760: the base performance score of one provider's stats entry
(`provider_stats.get(provider, {})`, so a missing entry reads as zero
requests). -/
def baseScore (stats : Option ProviderStats) : ℚ :=
  match stats with
  | none => 1/2
  | some s =>
    if s.requests = 0 then 1/2
    else
      let successRate : ℚ := (s.successes : ℚ) / (s.requests : ℚ)
      let speedFactor : ℚ := max (1/10) ((10 - min s.avg_time 10) / 10)
      successRate * (7/10 + 3/10 * speedFactor)

/-- Lines 762-767: the pattern-specific 1.2 boost. -/
def patternBoost (pat : QueryPattern) (provider : String) : ℚ :=
  if (pat = .faq ∨ pat = .debug) ∧ provider = "gemini" then 6/5
  else if pat = .creative ∧ provider = "llama2" then 6/5
  else 1

/-- A provider's final adaptive score (`final_score = base_score *
pattern_boost`). -/
def adaptiveScore (lookup : String → Option ProviderStats) (pat : QueryPattern)
    (provider : String) : ℚ :=
  baseScore (lookup provider) * patternBoost pat provider

/-- The selection loop (lines 746-772): running best provider and best score,
updated on strict improvement. -/
def selectLoop (score : String → ℚ) : List String → String × ℚ → String × ℚ
  | [], acc => acc
  | p :: rest, acc =>
    if score p > acc.2 then selectLoop score rest (p, score p)
    else selectLoop score rest acc

/-- The selection `_get_adaptive_provider`: short-circuit on a single candidate, otherwise
scan all candidates starting from `(available[0], 0.0)`. -/
def getAdaptiveProvider (lookup : String → Option ProviderStats)
    (available : List String) (pat : QueryPattern) : String :=
  match available with
  | [] => ""
  | [p] => p
  | hd :: tl =>
    (selectLoop (adaptiveScore lookup pat) (hd :: tl) (hd, 0)).1

/-- Modelled from the spec (§ provider selection): the adaptive score the spec
prescribes — `successRate * (0.7 + 0.3 * speedFactor)` with `successRate`
defaulting to 1.0 when there is no history, `speedFactor =
clamp((10 - avgLatencySeconds)/10, 0.1, 1)`, and the same 1.2 category boost.
Stated only to compare with the source's `adaptiveScore`. -/
def specAdaptiveScore (lookup : String → Option ProviderStats)
    (pat : QueryPattern) (provider : String) : ℚ :=
  let s := (lookup provider).getD defaultProviderStats
  let successRate : ℚ :=
    if s.requests = 0 then 1 else (s.successes : ℚ) / (s.requests : ℚ)
  let speedFactor : ℚ := max (1/10) (min ((10 - s.avg_time) / 10) 1)
  successRate * (7/10 + 3/10 * speedFactor) * patternBoost pat provider

/-! # Claims -/

/-- C6, counterexample.  The claim also asserts the hash "differs for any two
semantically different (query, context) pairs".  It does not: query and
context are concatenated with no separator before hashing, so the distinct
pairs `("ab", "c")` and `("a", "bc")` produce the same content string and
hence the same hash under any digest function (in particular SHA-256). -/
theorem C6_counterexample :
    cacheContent [97, 98] [99] = cacheContent [97] [98, 99]
    ∧ (([97, 98], [99]) : PyStr × PyStr) ≠ ([97], [98, 99]) := by
  decide

/-- C6, amended: for every digest function and all (query, context) pairs,
`hash(query, context) = hash(normalize(query), normalize(context))` where
`normalize` lower-cases and trims; but the hash does not separate all
semantically different pairs (the no-separator concatenation collides,
see the counterexample). -/
theorem C6_hash_normalization :
    ∀ (digest : PyStr → PyStr) (q c : PyStr),
      generateHash digest q c = generateHash digest (normalizeStr q) (normalizeStr c) := by
  intro digest q c
  unfold generateHash
  rw [cacheContent_normalize]

/-- The claim's length factor for the adaptive timeout: 1.5 for queries longer
than 50 words, 0.7 for queries shorter than 10 words, else 1. -/
def specLengthFactor (n : ℕ) : ℚ :=
  if n > 50 then 3/2 else if n < 10 then 7/10 else 1

/-- C8: the adaptive single-provider timeout equals
`clamp(baseTimeout * lengthFactor * patternMultiplier, 10, 120)` with
`baseTimeout = totalTimeout / 2`, and it always lies in `[10, 120]`;
the FAQ multiplier is 0.6 and the CREATIVE multiplier 1.5. -/
theorem C8_adaptive_timeout :
    ∀ (timeoutTotal : ℚ) (q : PyStr) (pat : QueryPattern),
      calculateAdaptiveTimeout timeoutTotal q pat
        = max 10 (min (timeoutTotal / 2 * specLengthFactor (pyWordCount q)
            * patternMultiplier pat) 120)
      ∧ 10 ≤ calculateAdaptiveTimeout timeoutTotal q pat
      ∧ calculateAdaptiveTimeout timeoutTotal q pat ≤ 120
      ∧ patternMultiplier .faq = 3/5
      ∧ patternMultiplier .creative = 3/2 := by
  intro timeoutTotal q pat
  refine ⟨?_, ?_, ?_, rfl, rfl⟩
  · simp only [calculateAdaptiveTimeout, specLengthFactor]
    by_cases h1 : pyWordCount q > 50
    · simp [h1]
    · by_cases h2 : pyWordCount q < 10
      · simp [h1, h2]
      · simp [h1, h2]
  · exact le_max_left _ _
  · exact max_le (by norm_num) (min_le_right _ _)

/-- C10: one stats update increments the request counter by 1 and exactly one
of the success/failure counters by 1, never decrements anything, and so
preserves `requests = successes + failures`; the default (fresh-provider)
stats dict satisfies the invariant, and the whole-table update preserves it
for every provider. -/
theorem C10_stats_invariant :
    (∀ (stats : ProviderStats) (success : Bool) (rt : ℚ),
      (updateProviderStats stats success rt).requests = stats.requests + 1
      ∧ (updateProviderStats stats success rt).successes
          = (if success then stats.successes + 1 else stats.successes)
      ∧ (updateProviderStats stats success rt).failures
          = (if success then stats.failures else stats.failures + 1)
      ∧ (updateProviderStats stats success rt).successes
            + (updateProviderStats stats success rt).failures
          = stats.successes + stats.failures + 1
      ∧ (stats.requests = stats.successes + stats.failures →
          (updateProviderStats stats success rt).requests
            = (updateProviderStats stats success rt).successes
              + (updateProviderStats stats success rt).failures)
      ∧ stats.requests ≤ (updateProviderStats stats success rt).requests
      ∧ stats.successes ≤ (updateProviderStats stats success rt).successes
      ∧ stats.failures ≤ (updateProviderStats stats success rt).failures)
    ∧ defaultProviderStats.requests
        = defaultProviderStats.successes + defaultProviderStats.failures
    ∧ (∀ (m : List (String × ProviderStats)) (provider : String) (success : Bool) (rt : ℚ),
        (∀ p s, alGet m p = some s → s.requests = s.successes + s.failures) →
        (∀ p s, alGet (updateProviderStatsMap m provider success rt) p = some s →
          s.requests = s.successes + s.failures)) := by
  refine ⟨?_, rfl, ?_⟩
  · intro stats success rt
    unfold updateProviderStats
    cases success <;> simp <;> omega
  · intro m provider success rt hinv p s hget
    unfold updateProviderStatsMap at hget
    by_cases hp : p = provider
    · subst hp
      rw [alGet_alSet_self] at hget
      have hbase : ((alGet m p).getD defaultProviderStats).requests
          = ((alGet m p).getD defaultProviderStats).successes
            + ((alGet m p).getD defaultProviderStats).failures := by
        cases hm : alGet m p with
        | none => simp [defaultProviderStats]
        | some s0 => simpa using hinv p s0 hm
      have hs : s = updateProviderStats ((alGet m p).getD defaultProviderStats) success rt :=
        (Option.some.injEq _ _ ▸ hget).symm
      subst hs
      unfold updateProviderStats
      cases success <;> simp <;> omega
    · rw [alGet_alSet_ne _ _ _ _ hp] at hget
      exact hinv p s hget

/-- C10 witness: the update and table-update invariants at a concrete stats
dict (3 = 2 + 1), a successful call of duration 2, and a one-row table. -/
theorem C10_stats_invariant_witness :
    (updateProviderStats ⟨3, 2, 1, 4, some 1, 9, [4]⟩ true 2).requests
        = (updateProviderStats ⟨3, 2, 1, 4, some 1, 9, [4]⟩ true 2).successes
          + (updateProviderStats ⟨3, 2, 1, 4, some 1, 9, [4]⟩ true 2).failures
    ∧ (∀ p s,
        alGet (updateProviderStatsMap [("gemini", ⟨3, 2, 1, 4, some 1, 9, [4]⟩)] "gemini" true 2)
            p = some s →
        s.requests = s.successes + s.failures) := by
  constructor
  · exact (C10_stats_invariant.1 ⟨3, 2, 1, 4, some 1, 9, [4]⟩ true 2).2.2.2.2.1 (by decide)
  · exact C10_stats_invariant.2.2 [("gemini", ⟨3, 2, 1, 4, some 1, 9, [4]⟩)] "gemini" true 2
      (by intro p s h; simp [alGet] at h; obtain ⟨-, rfl⟩ := h; decide)

/-- C1, counterexample.  The claim says a failing HALF_OPEN probe moves the
breaker back to OPEN.  It does not: entering HALF_OPEN resets the failure
counter, and a failure only opens the breaker once the counter reaches the
threshold again.  With the default threshold 5, a breaker in HALF_OPEN whose
probe fails at time 1 ends in HALF_OPEN, not OPEN. -/
theorem C1_counterexample :
    (⟨5, 60, 0, some 0, .halfOpen⟩ : CircuitBreaker).state = BreakerState.halfOpen
    ∧ (CircuitBreaker.call (⟨5, 60, 0, some 0, .halfOpen⟩ : CircuitBreaker) 1
        (Except.error () : Except Unit Unit)).breaker.state = BreakerState.halfOpen
    ∧ BreakerState.halfOpen ≠ BreakerState.opened := by
  decide

/-- C1, amended: in HALF_OPEN a successful probe moves the breaker to CLOSED
with the failure counter reset; a failing probe increments the failure counter
and updates `lastFailureTime`, but moves the breaker to OPEN only if the
incremented counter reaches `failureThreshold` — otherwise the breaker stays
HALF_OPEN (so further calls are allowed through, not just the next one). -/
theorem C1_half_open_probe :
    ∀ {α : Type} (cb : CircuitBreaker) (now : ℚ) (a : α),
      cb.state = .halfOpen →
      CircuitBreaker.call cb now (Except.ok a)
        = ⟨.success a, true, { cb with state := .closed, failure_count := 0 }⟩
      ∧ CircuitBreaker.call cb now (Except.error () : Except Unit α)
        = ⟨.funcError, true,
            { cb with failure_count := cb.failure_count + 1,
                      last_failure_time := some now,
                      state := if cb.failure_threshold ≤ cb.failure_count + 1
                               then .opened else .halfOpen }⟩ := by
  intro α cb now a h
  constructor
  · simp [CircuitBreaker.call, updateStateForCall, h]
  · simp [CircuitBreaker.call, updateStateForCall, h]

/-- C1 witness: the amended claim at a breaker with threshold 5 and counter 0
in HALF_OPEN, probing at time 7. -/
theorem C1_half_open_probe_witness :
    CircuitBreaker.call (⟨5, 60, 0, some 2, .halfOpen⟩ : CircuitBreaker) 7 (Except.ok ())
      = ⟨.success (), true,
          { (⟨5, 60, 0, some 2, .halfOpen⟩ : CircuitBreaker) with
              state := .closed, failure_count := 0 }⟩
    ∧ CircuitBreaker.call (⟨5, 60, 0, some 2, .halfOpen⟩ : CircuitBreaker) 7
        (Except.error () : Except Unit Unit)
      = ⟨.funcError, true,
          { (⟨5, 60, 0, some 2, .halfOpen⟩ : CircuitBreaker) with
              failure_count := (⟨5, 60, 0, some 2, .halfOpen⟩ : CircuitBreaker).failure_count + 1,
              last_failure_time := some 7,
              state := if (⟨5, 60, 0, some 2, .halfOpen⟩ : CircuitBreaker).failure_threshold
                          ≤ (⟨5, 60, 0, some 2, .halfOpen⟩ : CircuitBreaker).failure_count + 1
                       then .opened else .halfOpen }⟩ :=
  C1_half_open_probe ⟨5, 60, 0, some 2, .halfOpen⟩ 7 () rfl

theorem call_fail_closed (cb : CircuitBreaker) (t : ℚ) (h : cb.state = .closed) :
    (CircuitBreaker.call cb t (Except.error () : Except Unit Unit)).breaker
      = { cb with failure_count := cb.failure_count + 1,
                  last_failure_time := some t,
                  state := if cb.failure_threshold ≤ cb.failure_count + 1
                           then .opened else .closed } := by
  simp [CircuitBreaker.call, updateStateForCall, h]

theorem failCalls_opens :
    ∀ (ts : List ℚ) (cb : CircuitBreaker),
      cb.state = .closed → cb.failure_count + ts.length = cb.failure_threshold →
      ts ≠ [] →
      (failCalls cb ts).state = .opened
      ∧ (failCalls cb ts).failure_count = cb.failure_threshold
      ∧ (failCalls cb ts).last_failure_time = ts.getLast? := by
  intro ts
  induction ts with
  | nil => intro cb _ _ hne; exact absurd rfl hne
  | cons t ts' ih =>
    intro cb hst hcount _
    have hstep : failCalls cb (t :: ts')
        = failCalls ((CircuitBreaker.call cb t (Except.error () : Except Unit Unit)).breaker) ts' := by
      simp [failCalls]
    by_cases hts : ts' = []
    · subst hts
      have hcount' : cb.failure_count + 1 = cb.failure_threshold := by simpa using hcount
      rw [hstep, call_fail_closed cb t hst]
      refine ⟨?_, ?_, ?_⟩
      · simp [failCalls, if_pos (by omega : cb.failure_threshold ≤ cb.failure_count + 1)]
      · simp [failCalls]; omega
      · simp [failCalls]
    · have hlen2 : cb.failure_count + 1 + ts'.length = cb.failure_threshold := by
        simp at hcount; omega
      have hpos : 0 < ts'.length := List.length_pos.mpr hts
      have hlt : ¬ cb.failure_threshold ≤ cb.failure_count + 1 := by omega
      have hlast : (t :: ts').getLast? = ts'.getLast? := by
        cases ts' with
        | nil => exact absurd rfl hts
        | cons a l => rw [List.getLast?_cons_cons]
      rw [hstep, call_fail_closed cb t hst, if_neg hlt]
      have hrec := ih { cb with failure_count := cb.failure_count + 1,
                                last_failure_time := some t,
                                state := .closed } rfl (by simpa using hlen2) hts
      refine ⟨hrec.1, ?_, ?_⟩
      · simpa using hrec.2.1
      · rw [hrec.2.2, hlast]

/-- C2: (1) from CLOSED with counter 0, `failureThreshold` consecutive failing
calls leave the breaker OPEN with the counter at the threshold and
`lastFailureTime` at the last failure's clock; (2) in OPEN, any call within
`recoveryTimeout` of the last failure raises `CircuitBreakerOpenError` without
invoking the wrapped function and without changing the breaker; (3) once more
than `recoveryTimeout` has elapsed, the next call is attempted (the wrapped
function is invoked) after an internal transition to HALF_OPEN with the
counter reset, and a success returns the breaker to CLOSED with the counter
reset. -/
theorem C2_breaker_lifecycle :
    (∀ (cb : CircuitBreaker) (ts : List ℚ),
      cb.state = .closed → cb.failure_count = 0 →
      ts.length = cb.failure_threshold → ts ≠ [] →
      (failCalls cb ts).state = .opened
      ∧ (failCalls cb ts).failure_count = cb.failure_threshold
      ∧ (failCalls cb ts).last_failure_time = ts.getLast?)
    ∧ (∀ (cb : CircuitBreaker) (now tf : ℚ) (func : Except Unit Unit),
      cb.state = .opened → cb.last_failure_time = some tf →
      now - tf ≤ cb.recovery_timeout →
      CircuitBreaker.call cb now func = ⟨.breakerOpenError, false, cb⟩)
    ∧ (∀ (cb : CircuitBreaker) (now tf : ℚ),
      cb.state = .opened → cb.last_failure_time = some tf →
      cb.recovery_timeout < now - tf →
      (∀ func : Except Unit Unit, (CircuitBreaker.call cb now func).invoked = true)
      ∧ updateStateForCall cb now = { cb with state := .halfOpen, failure_count := 0 }
      ∧ (CircuitBreaker.call cb now (Except.ok ())).breaker
          = { cb with state := .closed, failure_count := 0 }) := by
  refine ⟨?_, ?_, ?_⟩
  · intro cb ts hst hcount hlen hne
    exact failCalls_opens ts cb hst (by omega) hne
  · intro cb now tf func hst hlf hle
    simp [CircuitBreaker.call, updateStateForCall, hst, hlf, not_lt.mpr hle]
  · intro cb now tf hst hlf hgt
    have hupd : updateStateForCall cb now = { cb with state := .halfOpen, failure_count := 0 } := by
      simp [updateStateForCall, hst, hlf, hgt]
    refine ⟨?_, hupd, ?_⟩
    · intro func
      cases func <;> simp [CircuitBreaker.call, hupd]
    · simp [CircuitBreaker.call, hupd]

/-- C2 witness: threshold 2 with failures at times 1 and 2 opens the breaker;
at time 30 (within the 60-second recovery window of the failure at time 2) a
call is rejected with the breaker unchanged; at time 100 a successful call
closes the breaker with the counter reset. -/
theorem C2_breaker_lifecycle_witness :
    ((failCalls ⟨2, 60, 0, none, .closed⟩ [1, 2]).state = .opened
      ∧ (failCalls ⟨2, 60, 0, none, .closed⟩ [1, 2]).failure_count
          = (⟨2, 60, 0, none, .closed⟩ : CircuitBreaker).failure_threshold
      ∧ (failCalls ⟨2, 60, 0, none, .closed⟩ [1, 2]).last_failure_time
          = [(1 : ℚ), 2].getLast?)
    ∧ CircuitBreaker.call (⟨2, 60, 2, some 2, .opened⟩ : CircuitBreaker) 30
        (Except.error () : Except Unit Unit)
      = ⟨.breakerOpenError, false, ⟨2, 60, 2, some 2, .opened⟩⟩
    ∧ (CircuitBreaker.call (⟨2, 60, 2, some 2, .opened⟩ : CircuitBreaker) 100
        (Except.ok ())).breaker
      = { (⟨2, 60, 2, some 2, .opened⟩ : CircuitBreaker) with
            state := .closed, failure_count := 0 } :=
  ⟨C2_breaker_lifecycle.1 ⟨2, 60, 0, none, .closed⟩ [1, 2] rfl rfl rfl (by decide),
   C2_breaker_lifecycle.2.1 ⟨2, 60, 2, some 2, .opened⟩ 30 2 (Except.error ()) rfl rfl
     (by decide),
   (C2_breaker_lifecycle.2.2 ⟨2, 60, 2, some 2, .opened⟩ 100 2 rfl rfl (by decide)).2.2⟩

theorem updateStateForCall_last (cb : CircuitBreaker) (now : ℚ) :
    (updateStateForCall cb now).last_failure_time = cb.last_failure_time := by
  unfold updateStateForCall; split <;> rfl

theorem updateStateForCall_count_le (cb : CircuitBreaker) (now : ℚ) :
    (updateStateForCall cb now).failure_count ≤ cb.failure_count := by
  unfold updateStateForCall; split
  · exact Nat.zero_le _
  · exact le_refl _

theorem updateStateForCall_opened (cb : CircuitBreaker) (now : ℚ) :
    (updateStateForCall cb now).state = .opened → cb.state = .opened := by
  unfold updateStateForCall; split
  · intro h; simp at h
  · exact id

/-- C9: `consult_gemini` wraps `_make_request` in the breaker, and
`_make_request` only creates the asynchronous task and returns it without
awaiting, so the breaker never observes an exception from the request: the
call never reports `funcError`, the failure counter never grows,
`lastFailureTime` is untouched, and the breaker cannot move into OPEN through
this path, whatever the request's eventual outcome. -/
theorem C9_create_task_shields_breaker :
    ∀ (cb : CircuitBreaker) (now : ℚ) (eventual : Except Unit Unit),
      (CircuitBreaker.call cb now (makeRequest eventual)).outcome ≠ CallOutcome.funcError
      ∧ (CircuitBreaker.call cb now (makeRequest eventual)).breaker.failure_count
          ≤ cb.failure_count
      ∧ ((CircuitBreaker.call cb now (makeRequest eventual)).breaker.state = .opened →
          cb.state = .opened)
      ∧ (CircuitBreaker.call cb now (makeRequest eventual)).breaker.last_failure_time
          = cb.last_failure_time := by
  intro cb now eventual
  have hlast := updateStateForCall_last cb now
  have hcnt := updateStateForCall_count_le cb now
  have hops := updateStateForCall_opened cb now
  simp only [CircuitBreaker.call, makeRequest]
  by_cases hopen : (updateStateForCall cb now).state = .opened
  · rw [if_pos hopen]
    exact ⟨by simp, hcnt, fun _ => hops hopen, hlast⟩
  · rw [if_neg hopen]
    by_cases hhalf : (updateStateForCall cb now).state = .halfOpen
    · rw [if_pos hhalf]
      exact ⟨by simp, Nat.zero_le _, by intro h; simp at h, hlast⟩
    · rw [if_neg hhalf]
      exact ⟨by simp, hcnt, fun h => hops h, hlast⟩

/-- C9 witness: a breaker that is OPEN with the recovery window not yet
elapsed, handed a task whose request will eventually fail. -/
theorem C9_create_task_shields_breaker_witness :
    (CircuitBreaker.call (⟨5, 60, 5, some 0, .opened⟩ : CircuitBreaker) 10
        (makeRequest (Except.error () : Except Unit Unit))).outcome ≠ CallOutcome.funcError
    ∧ (CircuitBreaker.call (⟨5, 60, 5, some 0, .opened⟩ : CircuitBreaker) 10
        (makeRequest (Except.error () : Except Unit Unit))).breaker.failure_count
        ≤ (⟨5, 60, 5, some 0, .opened⟩ : CircuitBreaker).failure_count
    ∧ ((CircuitBreaker.call (⟨5, 60, 5, some 0, .opened⟩ : CircuitBreaker) 10
        (makeRequest (Except.error () : Except Unit Unit))).breaker.state = .opened →
        (⟨5, 60, 5, some 0, .opened⟩ : CircuitBreaker).state = .opened)
    ∧ (CircuitBreaker.call (⟨5, 60, 5, some 0, .opened⟩ : CircuitBreaker) 10
        (makeRequest (Except.error () : Except Unit Unit))).breaker.last_failure_time
        = (⟨5, 60, 5, some 0, .opened⟩ : CircuitBreaker).last_failure_time :=
  C9_create_task_shields_breaker ⟨5, 60, 5, some 0, .opened⟩ 10 (Except.error ())

/-- C7: for an initialized limiter (`windowStart ≠ 0`): (1) once more than 60
seconds have elapsed since `windowStart`, the counter resets and the window
restarts at `now` (so a fresh attempt is allowed and counted when the limit is
positive); (2) an attempt inside the window is rejected, with the state
unchanged, whenever the counter has reached `requestsPerMinute`; (3) every
further attempt inside the same 60-second window is likewise rejected, for the
whole sequence; (4) an attempt inside the window below the limit increments
the counter and is allowed. -/
theorem C7_rate_limit_window :
    (∀ (maxRequests : ℕ) (now : ℚ) (rl : RateLimiterState),
      rl.last_request_time ≠ 0 → 60 < now - rl.last_request_time → 0 < maxRequests →
      checkRateLimit maxRequests now rl = (true, ⟨now, 1⟩))
    ∧ (∀ (maxRequests : ℕ) (now : ℚ) (rl : RateLimiterState),
      rl.last_request_time ≠ 0 → now - rl.last_request_time ≤ 60 →
      maxRequests ≤ rl.request_count →
      checkRateLimit maxRequests now rl = (false, rl))
    ∧ (∀ (maxRequests : ℕ) (rl : RateLimiterState) (ts : List ℚ),
      rl.last_request_time ≠ 0 → maxRequests ≤ rl.request_count →
      (∀ t ∈ ts, t - rl.last_request_time ≤ 60) →
      (rateLimitRun maxRequests rl ts).1 = ts.map (fun _ => false)
      ∧ (rateLimitRun maxRequests rl ts).2 = rl)
    ∧ (∀ (maxRequests : ℕ) (now : ℚ) (rl : RateLimiterState),
      rl.last_request_time ≠ 0 → now - rl.last_request_time ≤ 60 →
      rl.request_count < maxRequests →
      checkRateLimit maxRequests now rl
        = (true, ⟨rl.last_request_time, rl.request_count + 1⟩)) := by
  have hreject : ∀ (maxRequests : ℕ) (now : ℚ) (rl : RateLimiterState),
      rl.last_request_time ≠ 0 → now - rl.last_request_time ≤ 60 →
      maxRequests ≤ rl.request_count →
      checkRateLimit maxRequests now rl = (false, rl) := by
    intro m now rl h0 h60 hcnt
    simp [checkRateLimit, h0, not_lt.mpr h60, hcnt]
  refine ⟨?_, hreject, ?_, ?_⟩
  · intro m now rl h0 h60 hm
    simp [checkRateLimit, h0, h60, Nat.not_succ_le_zero, hm, Nat.pos_iff_ne_zero.mp hm]
  · intro m rl ts h0 hcnt hts
    induction ts with
    | nil => exact ⟨rfl, rfl⟩
    | cons t ts' ih =>
      have hstep : checkRateLimit m t rl = (false, rl) :=
        hreject m t rl h0 (hts t (by simp)) hcnt
      have hrest := ih (fun t' ht' => hts t' (by simp [ht']))
      refine ⟨?_, ?_⟩
      · simp only [rateLimitRun, hstep, hrest.1, List.map_cons]
      · simp only [rateLimitRun, hstep, hrest.2]
  · intro m now rl h0 h60 hcnt
    simp [checkRateLimit, h0, not_lt.mpr h60, not_le.mpr hcnt]

/-- C7 witness: limit 1, window started at 5 with one request counted.  At
time 50 (inside the window) a second attempt is rejected with the state
unchanged; attempts at 10 and 20 are both rejected in sequence; at time 100
the window rolls over and the attempt is allowed with a fresh counter; from
`⟨5, 0⟩` an in-window attempt at 50 is counted and allowed. -/
theorem C7_rate_limit_window_witness :
    checkRateLimit 1 100 ⟨5, 1⟩ = (true, ⟨100, 1⟩)
    ∧ checkRateLimit 1 50 ⟨5, 1⟩ = (false, ⟨5, 1⟩)
    ∧ ((rateLimitRun 1 ⟨5, 1⟩ [10, 20]).1 = [(10 : ℚ), 20].map (fun _ => false)
        ∧ (rateLimitRun 1 ⟨5, 1⟩ [10, 20]).2 = ⟨5, 1⟩)
    ∧ checkRateLimit 1 50 ⟨5, 0⟩ = (true, ⟨5, 0 + 1⟩) :=
  ⟨C7_rate_limit_window.1 1 100 ⟨5, 1⟩ (by decide) (by decide) (by decide),
   C7_rate_limit_window.2.1 1 50 ⟨5, 1⟩ (by decide) (by decide) (by decide),
   C7_rate_limit_window.2.2.1 1 ⟨5, 1⟩ [10, 20] (by decide) (by decide)
     (by intro t ht; simp at ht; rcases ht with h | h <;> rw [h] <;> decide),
   C7_rate_limit_window.2.2.2 1 50 ⟨5, 0⟩ (by decide) (by decide) (by decide)⟩

theorem baseScore_nonneg (stats : Option ProviderStats) : 0 ≤ baseScore stats := by
  cases stats with
  | none => simp [baseScore]
  | some s =>
    simp only [baseScore]
    by_cases h : s.requests = 0
    · rw [if_pos h]; norm_num
    · rw [if_neg h]
      have hrate : (0 : ℚ) ≤ (s.successes : ℚ) / (s.requests : ℚ) :=
        div_nonneg (by positivity) (by positivity)
      have hsf : (1 : ℚ)/10 ≤ max (1/10) ((10 - min s.avg_time 10) / 10) := le_max_left _ _
      have hfac : (0 : ℚ) ≤ 7/10 + 3/10 * max (1/10) ((10 - min s.avg_time 10) / 10) := by
        nlinarith
      exact mul_nonneg hrate hfac

theorem patternBoost_nonneg (pat : QueryPattern) (p : String) : 0 ≤ patternBoost pat p := by
  unfold patternBoost
  split
  · norm_num
  · split <;> norm_num

theorem adaptiveScore_nonneg (lookup : String → Option ProviderStats)
    (pat : QueryPattern) (p : String) : 0 ≤ adaptiveScore lookup pat p :=
  mul_nonneg (baseScore_nonneg _) (patternBoost_nonneg _ _)

theorem selectLoop_spec (score : String → ℚ) :
    ∀ (l : List String) (bp : String) (bs : ℚ), bs ≤ score bp →
      ((selectLoop score l (bp, bs)).1 = bp ∨ (selectLoop score l (bp, bs)).1 ∈ l)
      ∧ (selectLoop score l (bp, bs)).2 ≤ score (selectLoop score l (bp, bs)).1
      ∧ bs ≤ (selectLoop score l (bp, bs)).2
      ∧ ∀ p ∈ l, score p ≤ (selectLoop score l (bp, bs)).2 := by
  intro l
  induction l with
  | nil =>
    intro bp bs hbs
    exact ⟨Or.inl rfl, hbs, le_refl _, by simp⟩
  | cons q rest ih =>
    intro bp bs hbs
    simp only [selectLoop]
    by_cases hq : score q > bs
    · rw [if_pos hq]
      have hrec := ih q (score q) (le_refl _)
      refine ⟨?_, hrec.2.1, le_trans (le_of_lt hq) hrec.2.2.1, ?_⟩
      · rcases hrec.1 with h | h
        · exact Or.inr (by rw [h]; simp)
        · exact Or.inr (by simp [h])
      · intro p hp
        rcases List.mem_cons.mp hp with h | h
        · rw [h]; exact hrec.2.2.1
        · exact hrec.2.2.2 p h
    · rw [if_neg hq]
      have hrec := ih bp bs hbs
      refine ⟨?_, hrec.2.1, hrec.2.2.1, ?_⟩
      · rcases hrec.1 with h | h
        · exact Or.inl h
        · exact Or.inr (by simp [h])
      · intro p hp
        rcases List.mem_cons.mp hp with h | h
        · rw [h]; exact le_trans (not_lt.mp hq) hrec.2.2.1
        · exact hrec.2.2.2 p h

/-- C3, amended: for a nonempty candidate list, `_get_adaptive_provider`
returns a candidate whose adaptive score is maximal among the candidates,
where the score is the source's: base score 0.5 for a provider with zero
recorded requests (not `successRate = 1`), otherwise
`successRate * (0.7 + 0.3 * speedFactor)` with
`speedFactor = max(0.1, (10 - min(avgLatency, 10)) / 10)`, times a 1.2 boost
for gemini on FAQ/DEBUG and for llama2 on CREATIVE (ties and the all-zero
case resolve to the earliest-listed candidate). -/
theorem C3_adaptive_provider :
    ∀ (lookup : String → Option ProviderStats) (hd : String) (tl : List String)
      (pat : QueryPattern),
      getAdaptiveProvider lookup (hd :: tl) pat ∈ hd :: tl
      ∧ (∀ p ∈ hd :: tl,
          adaptiveScore lookup pat p
            ≤ adaptiveScore lookup pat (getAdaptiveProvider lookup (hd :: tl) pat))
      ∧ (∀ s : ProviderStats, s.requests = 0 → baseScore (some s) = 1/2)
      ∧ baseScore none = 1/2
      ∧ (∀ s : ProviderStats, 0 < s.requests →
          baseScore (some s) = (s.successes : ℚ) / (s.requests : ℚ)
            * (7/10 + 3/10 * max (1/10) ((10 - min s.avg_time 10) / 10)))
      ∧ patternBoost .faq "gemini" = 6/5
      ∧ patternBoost .debug "gemini" = 6/5
      ∧ patternBoost .creative "llama2" = 6/5 := by
  intro lookup hd tl pat
  refine ⟨?_, ?_, ?_, rfl, ?_, rfl, rfl, rfl⟩
  · cases tl with
    | nil => simp [getAdaptiveProvider]
    | cons b bt =>
      have h := selectLoop_spec (adaptiveScore lookup pat) (hd :: b :: bt) hd 0
        (adaptiveScore_nonneg lookup pat hd)
      rcases h.1 with h1 | h1
      · simp [getAdaptiveProvider, h1]
      · simp [getAdaptiveProvider, h1]
  · cases tl with
    | nil =>
      intro p hp
      simp at hp
      simp [getAdaptiveProvider, hp]
    | cons b bt =>
      intro p hp
      have h := selectLoop_spec (adaptiveScore lookup pat) (hd :: b :: bt) hd 0
        (adaptiveScore_nonneg lookup pat hd)
      exact le_trans (h.2.2.2 p hp) h.2.1
  · intro s h
    simp [baseScore, h]
  · intro s h
    simp [baseScore, Nat.pos_iff_ne_zero.mp h]

/-- The stats table of the C3 scenario: gemini exactly as initialized at
startup (zero requests, `avg_time = 0`), llama2 after ten requests with seven
successes and an average latency of zero. -/
def c3Lookup : String → Option ProviderStats := fun p =>
  if p = "gemini" then some ⟨0, 0, 0, 0, none, 0, []⟩
  else if p = "llama2" then some ⟨10, 7, 3, 0, none, 0, []⟩
  else none

/-- C3, counterexample.  Under the claim's scoring (`successRate` defaulting
to 1.0 with zero history) gemini would score 1 and llama2 7/10, so gemini
would be the single highest-scoring provider; the code scores a zero-history
provider a flat 0.5 and therefore returns llama2 instead. -/
theorem C3_counterexample :
    getAdaptiveProvider c3Lookup ["gemini", "llama2"] .general = "llama2"
    ∧ adaptiveScore c3Lookup .general "gemini" = 1/2
    ∧ specAdaptiveScore c3Lookup .general "gemini" = 1
    ∧ specAdaptiveScore c3Lookup .general "llama2" = 7/10
    ∧ specAdaptiveScore c3Lookup .general "llama2"
        < specAdaptiveScore c3Lookup .general "gemini"
    ∧ "llama2" ≠ "gemini" := by
  decide

/-- C3 witness: the amended claim at the concrete two-candidate scenario of
the counterexample. -/
theorem C3_adaptive_provider_witness :
    getAdaptiveProvider c3Lookup ["gemini", "llama2"] .general ∈ ["gemini", "llama2"]
    ∧ (∀ p ∈ ["gemini", "llama2"],
        adaptiveScore c3Lookup .general p
          ≤ adaptiveScore c3Lookup .general (getAdaptiveProvider c3Lookup ["gemini", "llama2"] .general))
    ∧ (∀ s : ProviderStats, s.requests = 0 → baseScore (some s) = 1/2)
    ∧ baseScore none = 1/2
    ∧ (∀ s : ProviderStats, 0 < s.requests →
        baseScore (some s) = (s.successes : ℚ) / (s.requests : ℚ)
          * (7/10 + 3/10 * max (1/10) ((10 - min s.avg_time 10) / 10)))
    ∧ patternBoost .faq "gemini" = 6/5
    ∧ patternBoost .debug "gemini" = 6/5
    ∧ patternBoost .creative "llama2" = 6/5 :=
  C3_adaptive_provider c3Lookup "gemini" ["llama2"] .general

theorem alGet_alErase_some {K V : Type} [DecidableEq K] (m : List (K × V)) (k' k : K) (v : V)
    (h : alGet (alErase m k') k = some v) : alGet m k = some v := by
  by_cases hk : k = k'
  · subst hk; rw [alGet_alErase_self] at h; cases h
  · rw [alGet_alErase_ne m k k' hk] at h; exact h

/-- Durable-tier rows as the cache writes them: the `timestamp` column always
equals the pickled entry's own timestamp field. -/
def dbWellFormed (st : CacheState) : Prop :=
  ∀ k row, alGet st.db k = some row → row.response_data.timestamp = row.timestamp

theorem evictLru_db (st : CacheState) : (evictLru st).db = st.db := by
  unfold evictLru; split
  · rfl
  · rfl

theorem cacheGetDb_fresh :
    ∀ (ttl now : ℚ) (key : PyStr) (st : CacheState) (r : CachedResponse) (st' : CacheState),
      dbWellFormed st →
      cacheGetDb ttl now key st = (some r, st') → now - r.timestamp < ttl := by
  intro ttl now key st r st' hwf h
  cases hdb : alGet st.db key with
  | none =>
    simp only [cacheGetDb, hdb] at h
    exact absurd (congrArg Prod.fst h) (by simp)
  | some row =>
    simp only [cacheGetDb, hdb] at h
    by_cases hfr : now - row.timestamp < ttl
    · rw [if_pos hfr] at h
      have hr : { row.response_data with hit_count := row.hit_count + 1 } = r := by
        have h1 := congrArg Prod.fst h
        simpa using h1
      have ht : r.timestamp = row.timestamp := by
        rw [← hr]; exact hwf key row hdb
      rw [ht]; exact hfr
    · rw [if_neg hfr] at h
      simp at h

theorem cacheSet_wf :
    ∀ (digest : PyStr → PyStr) (maxSize : ℕ) (accessNow : ℚ) (q c : PyStr)
      (e : CachedResponse) (st : CacheState),
      dbWellFormed st → dbWellFormed (cacheSet digest maxSize accessNow q c e st) := by
  intro digest maxSize accessNow q c e st hwf k row hrow
  simp only [cacheSet] at hrow
  by_cases hk : k = generateHash digest q c
  · subst hk
    rw [alGet_alSet_self] at hrow
    cases hrow
    rfl
  · rw [alGet_alSet_ne _ _ _ _ hk] at hrow
    have hdb : (if maxSize ≤ st.cache.length then evictLru st else st).db = st.db := by
      split
      · exact evictLru_db st
      · rfl
    rw [hdb] at hrow
    exact hwf k row hrow

theorem cacheGetDb_wf :
    ∀ (ttl now : ℚ) (key : PyStr) (st : CacheState),
      dbWellFormed st → dbWellFormed ((cacheGetDb ttl now key st).2) := by
  intro ttl now key st hwf
  cases hdb : alGet st.db key with
  | none =>
    simp only [cacheGetDb, hdb]
    exact hwf
  | some row0 =>
    simp only [cacheGetDb, hdb]
    by_cases hfr : now - row0.timestamp < ttl
    · rw [if_pos hfr]
      intro k row hrow
      by_cases hk : k = key
      · subst hk
        rw [alGet_alSet_self] at hrow
        cases hrow
        exact hwf _ row0 hdb
      · rw [alGet_alSet_ne _ _ _ _ hk] at hrow
        exact hwf k row hrow
    · rw [if_neg hfr]
      intro k row hrow
      exact hwf k row (alGet_alErase_some _ _ _ _ hrow)

theorem cacheGet_wf :
    ∀ (digest : PyStr → PyStr) (ttl now : ℚ) (q c : PyStr) (st : CacheState),
      dbWellFormed st → dbWellFormed ((cacheGet digest ttl now q c st).2) := by
  intro digest ttl now q c st hwf
  cases hc : alGet st.cache (generateHash digest q c) with
  | none =>
    simp only [cacheGet, hc]
    exact cacheGetDb_wf _ _ _ _ hwf
  | some entry =>
    simp only [cacheGet, hc]
    by_cases hfr : now - entry.timestamp < ttl
    · rw [if_pos hfr]
      exact hwf
    · rw [if_neg hfr]
      exact cacheGetDb_wf _ _ _ _ hwf

theorem cacheGet_expired_both (digest : PyStr → PyStr) (ttl now : ℚ) (q c : PyStr)
    (st : CacheState) (e : CachedResponse) (row : DbRow)
    (hmem : alGet st.cache (generateHash digest q c) = some e)
    (hdbr : alGet st.db (generateHash digest q c) = some row)
    (hnfr1 : ¬ (now - e.timestamp < ttl))
    (hnfr2 : ¬ (now - row.timestamp < ttl)) :
    (cacheGet digest ttl now q c st).1 = none
    ∧ alGet (cacheGet digest ttl now q c st).2.cache (generateHash digest q c) = none
    ∧ alGet (cacheGet digest ttl now q c st).2.db (generateHash digest q c) = none := by
  simp only [cacheGet, hmem]
  rw [if_neg hnfr1]
  simp only [cacheGetDb]
  rw [hdbr]
  dsimp only
  rw [if_neg hnfr2]
  exact ⟨rfl, alGet_alErase_self _ _, alGet_alErase_self _ _⟩

/-- C4: (1) `get` never returns an entry whose age has reached the TTL — for
any well-formed state, a returned entry satisfies `now - timestamp < ttl`;
(2) an entry stored with timestamp `t` is unreachable via `get` at any time
after `t + ttl`, and the expired entry is deleted from both tiers rather than
returned; (3)/(4) `set` and `get` preserve well-formedness of the durable
tier, so (1) applies to every state the cache builds. -/
theorem C4_ttl_expiry :
    (∀ (digest : PyStr → PyStr) (ttl now : ℚ) (q c : PyStr) (st : CacheState)
      (r : CachedResponse) (st' : CacheState),
      dbWellFormed st →
      cacheGet digest ttl now q c st = (some r, st') →
      now - r.timestamp < ttl)
    ∧ (∀ (digest : PyStr → PyStr) (ttl : ℚ) (maxSize : ℕ) (accessNow now : ℚ)
        (q c : PyStr) (e : CachedResponse) (st : CacheState),
      e.timestamp + ttl < now →
      (cacheGet digest ttl now q c (cacheSet digest maxSize accessNow q c e st)).1 = none
      ∧ alGet (cacheGet digest ttl now q c (cacheSet digest maxSize accessNow q c e st)).2.cache
          (generateHash digest q c) = none
      ∧ alGet (cacheGet digest ttl now q c (cacheSet digest maxSize accessNow q c e st)).2.db
          (generateHash digest q c) = none)
    ∧ (∀ (digest : PyStr → PyStr) (maxSize : ℕ) (accessNow : ℚ) (q c : PyStr)
        (e : CachedResponse) (st : CacheState),
      dbWellFormed st → dbWellFormed (cacheSet digest maxSize accessNow q c e st))
    ∧ (∀ (digest : PyStr → PyStr) (ttl now : ℚ) (q c : PyStr) (st : CacheState),
      dbWellFormed st → dbWellFormed ((cacheGet digest ttl now q c st).2)) := by
  refine ⟨?_, ?_, cacheSet_wf, cacheGet_wf⟩
  · intro digest ttl now q c st r st' hwf h
    cases hc : alGet st.cache (generateHash digest q c) with
    | none =>
      simp only [cacheGet, hc] at h
      exact cacheGetDb_fresh _ _ _ _ _ _ hwf h
    | some entry =>
      simp only [cacheGet, hc] at h
      by_cases hfr : now - entry.timestamp < ttl
      · rw [if_pos hfr] at h
        have hr : { entry with hit_count := entry.hit_count + 1 } = r := by
          have h1 := congrArg Prod.fst h
          simpa using h1
        have ht : r.timestamp = entry.timestamp := by rw [← hr]
        rw [ht]; exact hfr
      · rw [if_neg hfr] at h
        refine cacheGetDb_fresh _ _ _ _ _ _ ?_ h
        intro k row hrow
        exact hwf k row hrow
  · intro digest ttl maxSize accessNow now q c e st hexp
    have hnfr : ¬ (now - e.timestamp < ttl) := by intro hlt; linarith
    have hmem : alGet (cacheSet digest maxSize accessNow q c e st).cache
        (generateHash digest q c)
        = some { e with query_hash := generateHash digest q c } := by
      simp only [cacheSet]
      exact alGet_alSet_self _ _ _
    have hdbr : alGet (cacheSet digest maxSize accessNow q c e st).db
        (generateHash digest q c)
        = some ⟨{ e with query_hash := generateHash digest q c },
            e.timestamp, e.hit_count, e.provider, e.model_used⟩ := by
      simp only [cacheSet]
      exact alGet_alSet_self _ _ _
    exact cacheGet_expired_both digest ttl now q c _ _ _ hmem hdbr hnfr hnfr

/-- C4 witness: a fresh memory hit at time 100 on an entry stamped 50 with a
one-hour TTL satisfies the age bound; storing an entry stamped 50 with TTL 30
and reading at time 100 misses and leaves both tiers clean; both operations
preserve durable-tier well-formedness from the empty state. -/
theorem C4_ttl_expiry_witness :
    (100 : ℚ) - (⟨[119], [103], [109], 50, 1, [104], 1⟩ : CachedResponse).timestamp < 3600
    ∧ ((cacheGet (fun s => s) 30 100 [104] []
          (cacheSet (fun s => s) 10 50 [104] [] ⟨[119], [103], [109], 50, 0, [], 1⟩
            ⟨[], [], []⟩)).1 = none
      ∧ alGet (cacheGet (fun s => s) 30 100 [104] []
          (cacheSet (fun s => s) 10 50 [104] [] ⟨[119], [103], [109], 50, 0, [], 1⟩
            ⟨[], [], []⟩)).2.cache (generateHash (fun s => s) [104] []) = none
      ∧ alGet (cacheGet (fun s => s) 30 100 [104] []
          (cacheSet (fun s => s) 10 50 [104] [] ⟨[119], [103], [109], 50, 0, [], 1⟩
            ⟨[], [], []⟩)).2.db (generateHash (fun s => s) [104] []) = none)
    ∧ dbWellFormed (cacheSet (fun s => s) 10 50 [104] []
        ⟨[119], [103], [109], 50, 0, [], 1⟩ ⟨[], [], []⟩)
    ∧ dbWellFormed ((cacheGet (fun s => s) 3600 100 [104] [] ⟨[], [], []⟩).2) :=
  ⟨C4_ttl_expiry.1 (fun s => s) 3600 100 [104] []
      ⟨[([104], ⟨[119], [103], [109], 50, 0, [104], 1⟩)], [([104], 50)], []⟩
      ⟨[119], [103], [109], 50, 1, [104], 1⟩
      ⟨[([104], ⟨[119], [103], [109], 50, 1, [104], 1⟩)], [([104], 100)], []⟩
      (by intro k row h; simp [alGet] at h)
      (by decide),
   C4_ttl_expiry.2.1 (fun s => s) 30 10 50 100 [104] []
      ⟨[119], [103], [109], 50, 0, [], 1⟩ ⟨[], [], []⟩ (by decide),
   C4_ttl_expiry.2.2.1 (fun s => s) 10 50 [104] []
      ⟨[119], [103], [109], 50, 0, [], 1⟩ ⟨[], [], []⟩
      (by intro k row h; simp [alGet] at h),
   C4_ttl_expiry.2.2.2 (fun s => s) 3600 100 [104] [] ⟨[], [], []⟩
      (by intro k row h; simp [alGet] at h)⟩

/-- C5: `set(q, c, entry)` stores the entry (stamped with its query hash) in
the memory tier, and a `get(q, c)` within the TTL returns exactly that stored
entry with its hit count incremented by 1. -/
theorem C5_round_trip :
    ∀ (digest : PyStr → PyStr) (ttl : ℚ) (maxSize : ℕ) (accessNow now : ℚ)
      (q c : PyStr) (e : CachedResponse) (st : CacheState),
      now - e.timestamp < ttl →
      alGet (cacheSet digest maxSize accessNow q c e st).cache (generateHash digest q c)
        = some { e with query_hash := generateHash digest q c }
      ∧ (cacheGet digest ttl now q c (cacheSet digest maxSize accessNow q c e st)).1
        = some { e with query_hash := generateHash digest q c,
                        hit_count := e.hit_count + 1 } := by
  intro digest ttl maxSize accessNow now q c e st hfr
  have hmem : alGet (cacheSet digest maxSize accessNow q c e st).cache
      (generateHash digest q c)
      = some { e with query_hash := generateHash digest q c } := by
    simp only [cacheSet]
    exact alGet_alSet_self _ _ _
  refine ⟨hmem, ?_⟩
  simp only [cacheGet, hmem]
  rw [if_pos hfr]

/-- C5 witness: the round trip at concrete values — storing an entry stamped
50 and reading at time 100 with a one-hour TTL returns the stored entry with
hit count 1. -/
theorem C5_round_trip_witness :
    alGet (cacheSet (fun s => s) 10000 50 [104] []
        ⟨[119], [103], [109], 50, 0, [], 1⟩ ⟨[], [], []⟩).cache
        (generateHash (fun s => s) [104] [])
      = some { (⟨[119], [103], [109], 50, 0, [], 1⟩ : CachedResponse) with
                 query_hash := generateHash (fun s => s) [104] [] }
    ∧ (cacheGet (fun s => s) 3600 100 [104] []
        (cacheSet (fun s => s) 10000 50 [104] []
          ⟨[119], [103], [109], 50, 0, [], 1⟩ ⟨[], [], []⟩)).1
      = some { (⟨[119], [103], [109], 50, 0, [], 1⟩ : CachedResponse) with
                 query_hash := generateHash (fun s => s) [104] [],
                 hit_count := (⟨[119], [103], [109], 50, 0, [], 1⟩ : CachedResponse).hit_count + 1 } :=
  C5_round_trip (fun s => s) 3600 10000 50 100 [104] []
    ⟨[119], [103], [109], 50, 0, [], 1⟩ ⟨[], [], []⟩ (by decide)
